import Mathlib

/-!
Verification of the trajectory-prediction core of the WindBorne balloon
dashboard.  The JavaScript source is embedded shallowly over the real
numbers: `haversineDelta`, `applyDeltaHaversine` and `predictNextPosition`
are translated directly from the source, with JavaScript's `%` operator
(remainder, taking the sign of the dividend) modelled by `jsMod`, optional
record fields by `Option ℝ` with the `?? 0` fallback as `Option.getD 0`,
the `null` result as `Option.none`, and a JavaScript `TypeError` (thrown
when `coef[i]` is `undefined`) as the `Except.error` case.
-/

namespace WindBorne

noncomputable section

open Real

/-- Truncation toward zero, as JavaScript truncates the quotient when
evaluating the `%` operator. -/
def truncTowardZero (z : ℝ) : ℤ :=
  if 0 ≤ z then ⌊z⌋ else ⌈z⌉

/-- JavaScript's `%` operator on (idealised, exact) numbers:
`x % y = x - y * trunc (x / y)`; the result has the sign of the dividend. -/
def jsMod (x y : ℝ) : ℝ :=
  x - y * truncTowardZero (x / y)

/-- `toRad` from the source: degrees to radians. -/
def toRad (v : ℝ) : ℝ :=
  v * Real.pi / 180

/-- One observation of a balloon.  The source consumes records with numeric
`lat`, `lon`, `alt` and optional `balloon_speed`, `balloon_dir`,
`windspeed`, `winddir` fields (read through `?? 0`). -/
structure Sample where
  lat : ℝ
  lon : ℝ
  alt : ℝ
  balloon_speed : Option ℝ := none
  balloon_dir : Option ℝ := none
  windspeed : Option ℝ := none
  winddir : Option ℝ := none

instance : Inhabited Sample :=
  ⟨{ lat := 0, lon := 0, alt := 0 }⟩

/-- The deserialized `balloon_model.json`: fields `coef` and `intercept`. -/
structure Model where
  coef : List (List ℝ)
  intercept : List ℝ

/-- `applyDeltaHaversine` from the source: convert a (north-km, east-km)
delta back to lat/lon anchored at `(lat, lon)`, dividing the longitude
component by the cosine of the anchor latitude only. -/
def applyDeltaHaversine (lat lon dLatKm dLonKm : ℝ) : ℝ × ℝ :=
  (lat + dLatKm / 6371 * (180 / Real.pi),
   lon + dLonKm / 6371 * (180 / Real.pi) / Real.cos (lat * Real.pi / 180))

/-- `haversineDelta` from the source: equirectangular delta in km,
returned as `[delta_lat_km, delta_lon_km]`.  The longitude difference is
passed through `((dlon + π) % (2π)) - π` with JavaScript `%` semantics. -/
def haversineDelta (lat1 lon1 lat2 lon2 : ℝ) : ℝ × ℝ :=
  let R : ℝ := 6371
  let lat1r := toRad lat1
  let lat2r := toRad lat2
  let dlon := jsMod (toRad (lon2 - lon1) + Real.pi) (2 * Real.pi) - Real.pi
  let dlat := toRad (lat2 - lat1)
  (dlat * R, dlon * Real.cos ((lat1r + lat2r) / 2) * R)

/-- The 7-element feature group pushed for one consecutive pair `(a, b)`
in the feature loop of `predictNextPosition` (`a` is the earlier sample). -/
def pairFeatures (a b : Sample) : List ℝ :=
  let d := haversineDelta a.lat a.lon b.lat b.lon
  [d.1, d.2, b.alt - a.alt,
   a.balloon_speed.getD 0, a.balloon_dir.getD 0,
   a.windspeed.getD 0, a.winddir.getD 0]

/-- The feature vector built by the `for (let j = 0; j < 20; j++)` loop of
`predictNextPosition` over the chronologically ordered window `w`.
(The `if (!a || !b) return null` guard of the source cannot fire: the
window is a dense length-21 array at this point, so `last21[j]` is defined
for every `j ≤ 20`.) -/
def featuresOf (w : List Sample) : List ℝ :=
  ((List.range 20).map fun j =>
    pairFeatures (w.getD j default) (w.getD (j + 1) default)).flatten

/-- The inner accumulation `v += (coef[i][j] ?? 0) * features[j]` over
`j < features.length`: a missing coefficient entry reads as 0. -/
def dotFeatures (row x : List ℝ) : ℝ :=
  ∑ j ∈ Finset.range x.length, row.getD j 0 * x.getD j 0

/-- `predictNextPosition` from the source.  `.ok none` is the `null`
result (`!positions?.length || !modelData`, or fewer than 21 samples);
`.error ()` is the `TypeError` thrown when `coef[i]` is `undefined`
(fewer than 3 coefficient rows); otherwise the prediction record
`{ lat, lon, alt }` is returned (it carries no optional fields). -/
def predictNextPosition (modelData : Option Model) (positions : List Sample) :
    Except Unit (Option Sample) :=
  match modelData with
  | none => .ok none
  | some m =>
    if positions.length = 0 then .ok none else
    let last21 := (positions.take 21).reverse
    if last21.length < 21 then .ok none else
    let x := featuresOf last21
    if m.coef.length < 3 then .error () else
    let d0 := m.intercept.getD 0 0 + dotFeatures (m.coef.getD 0 []) x
    let d1 := m.intercept.getD 1 0 + dotFeatures (m.coef.getD 1 []) x
    let d2 := m.intercept.getD 2 0 + dotFeatures (m.coef.getD 2 []) x
    let last := last21.getD (last21.length - 1) default
    let p := applyDeltaHaversine last.lat last.lon d0 d1
    .ok (some { lat := p.1, lon := p.2, alt := last.alt + d2 })

/-- Forward delta followed by the inverse projection, both anchored at
`(lat, lon)` (the composition exercised by the round-trip property). -/
def roundTrip (lat lon lat2 lon2 : ℝ) : ℝ × ℝ :=
  let d := haversineDelta lat lon lat2 lon2
  applyDeltaHaversine lat lon d.1 d.2

/-- A sample with all optional fields absent (as parsed balloon records
are: `{ lat, lon, alt }` only). -/
def stripOptional (s : Sample) : Sample :=
  { lat := s.lat, lon := s.lon, alt := s.alt }

/-- The same sample with the optional fields explicitly set to 0. -/
def zeroOptional (s : Sample) : Sample :=
  { lat := s.lat, lon := s.lon, alt := s.alt,
    balloon_speed := some 0, balloon_dir := some 0,
    windspeed := some 0, winddir := some 0 }

/-- A stationary history: 21 identical samples at the origin. -/
def histFixed : List Sample :=
  List.replicate 21 { lat := 0, lon := 0, alt := 5 }

/-- A model whose three coefficient rows are empty (0 columns, not 140). -/
def badShapeModel : Model :=
  { coef := [[], [], []], intercept := [1, 2, 3] }

/-- The all-zero-coefficients model of the stationary example scenario. -/
def zeroCoefModel : Model :=
  { coef := List.replicate 3 (List.replicate 140 0),
    intercept := [0.01, 0.02, -0.5] }

/-- A correctly shaped (3 × 140) model with zero entries. -/
def flatModel : Model :=
  { coef := List.replicate 3 (List.replicate 140 0), intercept := [0, 0, 0] }

/-- A length-21 history used to instantiate universally quantified results. -/
def histA : List Sample :=
  List.replicate 21 { lat := 10, lon := 20, alt := 3 }

/-- A length-22 history whose first 21 entries agree with `histA`. -/
def histB : List Sample :=
  List.replicate 22 { lat := 10, lon := 20, alt := 3 }

end

/-! ## Basic lemmas about the longitude wraparound -/

/-- When the raw radian difference `r` lies in `(-2π, π)`, the source's
normalization `((r + π) % (2π)) - π` (JavaScript `%`) leaves `r`
unchanged.  In particular a raw difference below `-π` — an eastward
crossing of the ±180° meridian — is NOT wrapped, because JavaScript's
remainder keeps the dividend's sign. -/
theorem wrapLon_eq_self {r : ℝ} (h1 : -(2 * Real.pi) < r) (h2 : r < Real.pi) :
    jsMod (r + Real.pi) (2 * Real.pi) - Real.pi = r := by
  have hpi := Real.pi_pos
  unfold jsMod truncTowardZero
  rcases le_or_lt 0 (r + Real.pi) with h | h
  · have h0 : 0 ≤ (r + Real.pi) / (2 * Real.pi) := div_nonneg h (by linarith)
    rw [if_pos h0]
    have hfl : ⌊(r + Real.pi) / (2 * Real.pi)⌋ = 0 := by
      rw [Int.floor_eq_zero_iff]
      refine ⟨h0, ?_⟩
      rw [div_lt_one (by linarith)]
      linarith
    rw [hfl]
    push_cast
    ring
  · have h0 : ¬ 0 ≤ (r + Real.pi) / (2 * Real.pi) := by
      rw [not_le]
      exact div_neg_of_neg_of_pos h (by linarith)
    rw [if_neg h0]
    have hce : ⌈(r + Real.pi) / (2 * Real.pi)⌉ = 0 := by
      rw [Int.ceil_eq_zero_iff]
      refine ⟨?_, le_of_lt (div_neg_of_neg_of_pos h (by linarith))⟩
      rw [lt_div_iff₀ (by linarith)]
      linarith
    rw [hce]
    push_cast
    ring

/-- When the raw radian difference `r` lies in `[π, 3π)` (a westward
±180° crossing), the normalization does subtract `2π`. -/
theorem wrapLon_eq_sub {r : ℝ} (h1 : Real.pi ≤ r) (h2 : r < 3 * Real.pi) :
    jsMod (r + Real.pi) (2 * Real.pi) - Real.pi = r - 2 * Real.pi := by
  have hpi := Real.pi_pos
  unfold jsMod truncTowardZero
  have h0 : 0 ≤ (r + Real.pi) / (2 * Real.pi) := div_nonneg (by linarith) (by linarith)
  rw [if_pos h0]
  have hfl : ⌊(r + Real.pi) / (2 * Real.pi)⌋ = 1 := by
    rw [Int.floor_eq_iff]
    constructor
    · rw [le_div_iff₀ (by linarith)]
      push_cast
      linarith
    · rw [div_lt_iff₀ (by linarith)]
      push_cast
      linarith
  rw [hfl]
  push_cast
  ring

theorem toRad_zero : toRad 0 = 0 := by
  simp [toRad]

/-- The geodesic delta of a point with itself vanishes. -/
theorem haversineDelta_self (lat lon : ℝ) : haversineDelta lat lon lat lon = (0, 0) := by
  have hpi := Real.pi_pos
  have hw : jsMod (Real.pi) (2 * Real.pi) - Real.pi = 0 := by
    have h := wrapLon_eq_self (r := (0 : ℝ)) (by linarith) hpi
    simpa using h
  simp [haversineDelta, toRad_zero, hw]

/-! ## Elementary facts about the embedded operations -/

theorem getD_replicate_zero (n j : ℕ) : (List.replicate n (0 : ℝ)).getD j 0 = 0 := by
  rcases Nat.lt_or_ge j n with h | h
  · rw [List.getD_eq_getElem _ _ (by simpa using h), List.getElem_replicate]
  · rw [List.getD_eq_default _ _ (by simpa using h)]

theorem dotFeatures_nil (x : List ℝ) : dotFeatures [] x = 0 := by
  simp [dotFeatures]

theorem dotFeatures_zero_row (n : ℕ) (x : List ℝ) :
    dotFeatures (List.replicate n (0 : ℝ)) x = 0 := by
  unfold dotFeatures
  refine Finset.sum_eq_zero fun j _ => ?_
  rw [getD_replicate_zero, zero_mul]

theorem length_pairFeatures (a b : Sample) : (pairFeatures a b).length = 7 := rfl

theorem length_featuresOf (w : List Sample) : (featuresOf w).length = 140 := by
  unfold featuresOf
  rw [List.length_flatten, List.map_map]
  have h : (List.range 20).map
      (List.length ∘ fun j => pairFeatures (w.getD j default) (w.getD (j + 1) default))
      = (List.range 20).map fun _ => 7 := by
    refine List.map_congr_left fun j _ => ?_
    simp [length_pairFeatures]
  rw [h, List.map_const', List.sum_replicate]
  simp

/-- Indexing into the reversed 21-window: entry `j` of
`(l.take 21).reverse` is entry `20 - j` of `l` (most-recent-first). -/
theorem getD_reverse_take (l : List Sample) (j : ℕ) (hj : j < 21)
    (hl : 21 ≤ l.length) :
    ((l.take 21).reverse).getD j default = l.getD (20 - j) default := by
  have htl : (l.take 21).length = 21 := by simp [Nat.min_eq_left hl]
  have h1 : j < ((l.take 21).reverse).length := by
    simpa [htl] using hj
  rw [List.getD_eq_getElem _ _ h1, List.getElem_reverse]
  simp only [htl, List.getElem_take]
  rw [List.getD_eq_getElem _ _ (show 20 - j < l.length by omega)]

/-- The shape of the result of `predictNextPosition` whenever the history
has at least 21 samples and the model has at least 3 coefficient rows:
the computation always succeeds, reading any missing coefficient or
intercept entry as 0 through `?? 0`. -/
theorem predict_closed_form (m : Model) (positions : List Sample)
    (hlen : 21 ≤ positions.length) (hrows : 3 ≤ m.coef.length) :
    predictNextPosition (some m) positions =
      .ok (some
        { lat := (positions.getD 0 default).lat +
            (m.intercept.getD 0 0 + dotFeatures (m.coef.getD 0 [])
              (featuresOf ((positions.take 21).reverse))) / 6371 * (180 / Real.pi),
          lon := (positions.getD 0 default).lon +
            (m.intercept.getD 1 0 + dotFeatures (m.coef.getD 1 [])
              (featuresOf ((positions.take 21).reverse))) / 6371 * (180 / Real.pi)
              / Real.cos ((positions.getD 0 default).lat * Real.pi / 180),
          alt := (positions.getD 0 default).alt +
            (m.intercept.getD 2 0 + dotFeatures (m.coef.getD 2 [])
              (featuresOf ((positions.take 21).reverse))) }) := by
  have hne : ¬ positions.length = 0 := by omega
  have hnlt : ¬ min 21 positions.length < 21 := by omega
  have hrow : ¬ m.coef.length < 3 := by omega
  have hm : (21 : ℕ) ⊓ positions.length = 21 := min_eq_left hlen
  have hanchor : ((positions.take 21).reverse).getD (21 ⊓ positions.length - 1) default
      = positions.getD 0 default := by
    rw [hm]
    simpa using getD_reverse_take positions 20 (by omega) hlen
  simp only [predictNextPosition, hne, if_false, List.length_reverse,
    List.length_take, hnlt, hrow, hanchor, applyDeltaHaversine]

/-- C1: the second component of `haversineDelta` at `lon1 = 179.5`,
`lon2 = -179.5` (equator): the raw radian difference `-359°` is left
unwrapped by the JavaScript-`%` normalization, so the result is the
near-antipodal `-(359·π/180)·6371 ≈ -39917` km — negative and huge, not
the small positive ≈111 km the specification requires. -/
theorem haversineDelta_wraparound_failure :
    (haversineDelta 0 179.5 0 (-179.5)).2 = -(359 * Real.pi / 180) * 6371 ∧
    (haversineDelta 0 179.5 0 (-179.5)).2 < 0 := by
  have hpi := Real.pi_pos
  have hr : toRad ((-179.5 : ℝ) - 179.5) = -(359 * Real.pi / 180) := by
    unfold toRad
    ring
  have hw : jsMod (toRad ((-179.5 : ℝ) - 179.5) + Real.pi) (2 * Real.pi) - Real.pi
      = -(359 * Real.pi / 180) := by
    rw [hr]
    exact wrapLon_eq_self (by linarith) (by linarith)
  have h2 : (haversineDelta 0 179.5 0 (-179.5)).2 = -(359 * Real.pi / 180) * 6371 := by
    simp only [haversineDelta, hw, toRad_zero]
    norm_num
  refine ⟨h2, ?_⟩
  rw [h2]
  have hp : 0 < 359 * Real.pi / 180 * 6371 := by positivity
  linarith

/-- C3: with fewer than 21 samples the call returns `null` (Unavailable),
whatever the model argument is, including an absent model. -/
theorem predictNext_unavailable_of_short (modelData : Option Model)
    (positions : List Sample) (h : positions.length < 21) :
    predictNextPosition modelData positions = .ok none := by
  cases modelData with
  | none => rfl
  | some m =>
    rcases Nat.eq_zero_or_pos positions.length with h0 | h0
    · simp [predictNextPosition, h0]
    · have hne : ¬ positions.length = 0 := by omega
      have hlt : min 21 positions.length < 21 := by omega
      simp [predictNextPosition, hne, hlt]

/-- Witness for C3 at a concrete 5-sample history and a present model. -/
theorem predictNext_unavailable_of_short_witness :
    (List.replicate 5 ({ lat := 1, lon := 2, alt := 3 } : Sample)).length < 21 ∧
    predictNextPosition (some flatModel)
      (List.replicate 5 { lat := 1, lon := 2, alt := 3 }) = .ok none :=
  ⟨by norm_num, predictNext_unavailable_of_short (some flatModel) _ (by norm_num)⟩

/-- C2 counterexample: a model whose three coefficient rows have 0
columns (≠ 140) is not rejected with a ShapeMismatch: the call silently
reads every missing coefficient as 0 and returns a prediction. -/
theorem predict_badShape_returns_prediction :
    predictNextPosition (some badShapeModel) histFixed =
      .ok (some { lat := 1 / 6371 * (180 / Real.pi),
                  lon := 2 / 6371 * (180 / Real.pi),
                  alt := 8 }) := by
  rw [predict_closed_form badShapeModel histFixed (by norm_num [histFixed])
    (by norm_num [badShapeModel])]
  have h0 : histFixed.getD 0 default = ({ lat := 0, lon := 0, alt := 5 } : Sample) := rfl
  simp only [h0, badShapeModel, dotFeatures_nil]
  norm_num [dotFeatures_nil, Real.cos_zero]

/-- C2 (amended): `predictNextPosition` performs no shape validation.
For a history of ≥21 samples: if the model has at least 3 coefficient
rows the call always computes a prediction, reading missing coefficient
and intercept entries as 0 (silent zero-padding) and ignoring extra
columns; if it has fewer than 3 rows the call aborts with a thrown
TypeError, not a ShapeMismatch result. -/
theorem predict_shape_behavior (m : Model) (positions : List Sample)
    (hlen : 21 ≤ positions.length) :
    (3 ≤ m.coef.length →
      predictNextPosition (some m) positions =
        .ok (some
          { lat := (positions.getD 0 default).lat +
              (m.intercept.getD 0 0 + dotFeatures (m.coef.getD 0 [])
                (featuresOf ((positions.take 21).reverse))) / 6371 * (180 / Real.pi),
            lon := (positions.getD 0 default).lon +
              (m.intercept.getD 1 0 + dotFeatures (m.coef.getD 1 [])
                (featuresOf ((positions.take 21).reverse))) / 6371 * (180 / Real.pi)
                / Real.cos ((positions.getD 0 default).lat * Real.pi / 180),
            alt := (positions.getD 0 default).alt +
              (m.intercept.getD 2 0 + dotFeatures (m.coef.getD 2 [])
                (featuresOf ((positions.take 21).reverse))) })) ∧
    (m.coef.length < 3 →
      predictNextPosition (some m) positions = .error ()) := by
  constructor
  · exact fun hrows => predict_closed_form m positions hlen hrows
  · intro hrow
    have hne : ¬ positions.length = 0 := by omega
    have hnlt : ¬ min 21 positions.length < 21 := by omega
    simp [predictNextPosition, hne, hnlt, hrow]

/-- Witness for C2 (amended) at `histFixed` and `badShapeModel`. -/
theorem predict_shape_behavior_witness :
    21 ≤ histFixed.length ∧
    ((3 ≤ badShapeModel.coef.length →
      predictNextPosition (some badShapeModel) histFixed =
        .ok (some
          { lat := (histFixed.getD 0 default).lat +
              (badShapeModel.intercept.getD 0 0 + dotFeatures (badShapeModel.coef.getD 0 [])
                (featuresOf ((histFixed.take 21).reverse))) / 6371 * (180 / Real.pi),
            lon := (histFixed.getD 0 default).lon +
              (badShapeModel.intercept.getD 1 0 + dotFeatures (badShapeModel.coef.getD 1 [])
                (featuresOf ((histFixed.take 21).reverse))) / 6371 * (180 / Real.pi)
                / Real.cos ((histFixed.getD 0 default).lat * Real.pi / 180),
            alt := (histFixed.getD 0 default).alt +
              (badShapeModel.intercept.getD 2 0 + dotFeatures (badShapeModel.coef.getD 2 [])
                (featuresOf ((histFixed.take 21).reverse))) })) ∧
     (badShapeModel.coef.length < 3 →
      predictNextPosition (some badShapeModel) histFixed = .error ())) :=
  ⟨by norm_num [histFixed],
   predict_shape_behavior badShapeModel histFixed (by norm_num [histFixed])⟩

/-- C4: with ≥21 samples and a compatible 3×140 model, the prediction is
the most recent sample (`positions[0]`, i.e. `w[20]`) displaced by the
affine model output over the 140-element feature vector, the longitude
displacement divided by the cosine of the anchor latitude only. -/
theorem predict_formula (m : Model) (positions : List Sample)
    (hlen : 21 ≤ positions.length)
    (hrows : m.coef.length = 3)
    (_hcols : ∀ row ∈ m.coef, row.length = 140)
    (_hint : m.intercept.length = 3) :
    predictNextPosition (some m) positions =
      .ok (some
        { lat := (positions.getD 0 default).lat +
            (m.intercept.getD 0 0 + ∑ j ∈ Finset.range 140,
              (m.coef.getD 0 []).getD j 0 *
                (featuresOf ((positions.take 21).reverse)).getD j 0)
              / 6371 * (180 / Real.pi),
          lon := (positions.getD 0 default).lon +
            (m.intercept.getD 1 0 + ∑ j ∈ Finset.range 140,
              (m.coef.getD 1 []).getD j 0 *
                (featuresOf ((positions.take 21).reverse)).getD j 0)
              / 6371 * (180 / Real.pi)
              / Real.cos ((positions.getD 0 default).lat * Real.pi / 180),
          alt := (positions.getD 0 default).alt +
            (m.intercept.getD 2 0 + ∑ j ∈ Finset.range 140,
              (m.coef.getD 2 []).getD j 0 *
                (featuresOf ((positions.take 21).reverse)).getD j 0) }) := by
  have hdot : ∀ row : List ℝ,
      dotFeatures row (featuresOf ((positions.take 21).reverse)) =
        ∑ j ∈ Finset.range 140,
          row.getD j 0 * (featuresOf ((positions.take 21).reverse)).getD j 0 := by
    intro row
    unfold dotFeatures
    rw [length_featuresOf]
  rw [predict_closed_form m positions hlen (by omega)]
  simp only [hdot]

/-- Witness for C4 at `histA` and the zero 3×140 model. -/
theorem predict_formula_witness :
    (21 ≤ histA.length ∧ flatModel.coef.length = 3 ∧
      (∀ row ∈ flatModel.coef, row.length = 140) ∧ flatModel.intercept.length = 3) ∧
    predictNextPosition (some flatModel) histA =
      .ok (some
        { lat := (histA.getD 0 default).lat +
            (flatModel.intercept.getD 0 0 + ∑ j ∈ Finset.range 140,
              (flatModel.coef.getD 0 []).getD j 0 *
                (featuresOf ((histA.take 21).reverse)).getD j 0)
              / 6371 * (180 / Real.pi),
          lon := (histA.getD 0 default).lon +
            (flatModel.intercept.getD 1 0 + ∑ j ∈ Finset.range 140,
              (flatModel.coef.getD 1 []).getD j 0 *
                (featuresOf ((histA.take 21).reverse)).getD j 0)
              / 6371 * (180 / Real.pi)
              / Real.cos ((histA.getD 0 default).lat * Real.pi / 180),
          alt := (histA.getD 0 default).alt +
            (flatModel.intercept.getD 2 0 + ∑ j ∈ Finset.range 140,
              (flatModel.coef.getD 2 []).getD j 0 *
                (featuresOf ((histA.take 21).reverse)).getD j 0) }) :=
  ⟨⟨by norm_num [histA], by norm_num [flatModel],
    by
      intro row hrow
      simp only [flatModel, List.mem_replicate] at hrow
      rw [hrow.2]
      simp,
    by norm_num [flatModel]⟩,
   predict_formula flatModel histA (by norm_num [histA]) (by norm_num [flatModel])
     (by
       intro row hrow
       simp only [flatModel, List.mem_replicate] at hrow
       rw [hrow.2]
       simp)
     (by norm_num [flatModel])⟩

/-- C9: a stationary 21-sample history (all optional fields 0) with zero
coefficients and intercepts `[0.01, 0.02, -0.5]` predicts exactly the
inverse projection of `(0.01 km, 0.02 km)` at the fixed point, with
altitude decreased by exactly 0.5. -/
theorem predict_stationary_example (lat lon alt : ℝ) :
    predictNextPosition (some zeroCoefModel)
      (List.replicate 21
        { lat := lat, lon := lon, alt := alt,
          balloon_speed := some 0, balloon_dir := some 0,
          windspeed := some 0, winddir := some 0 }) =
      .ok (some { lat := (applyDeltaHaversine lat lon 0.01 0.02).1,
                  lon := (applyDeltaHaversine lat lon 0.01 0.02).2,
                  alt := alt - 0.5 }) := by
  rw [predict_closed_form zeroCoefModel _ (by norm_num)
    (by norm_num [zeroCoefModel])]
  have hc : ∀ i : ℕ, i < 3 → zeroCoefModel.coef.getD i [] = List.replicate 140 0 := by
    intro i hi
    interval_cases i <;> rfl
  simp only [hc 0 (by norm_num), hc 1 (by norm_num), hc 2 (by norm_num),
    dotFeatures_zero_row]
  have h0 : (List.replicate 21
      ({ lat := lat, lon := lon, alt := alt,
         balloon_speed := some 0, balloon_dir := some 0,
         windspeed := some 0, winddir := some 0 } : Sample)).getD 0 default =
      { lat := lat, lon := lon, alt := alt,
        balloon_speed := some 0, balloon_dir := some 0,
        windspeed := some 0, winddir := some 0 } := rfl
  rw [h0]
  simp only [zeroCoefModel, applyDeltaHaversine]
  norm_num
  ring

/-- C10: the prediction depends only on the 21 most recent samples: two
histories of length ≥21 agreeing on their first 21 entries give the same
result for the same model. -/
theorem predict_window_only (modelData : Option Model) (p1 p2 : List Sample)
    (h1 : 21 ≤ p1.length) (h2 : 21 ≤ p2.length)
    (heq : p1.take 21 = p2.take 21) :
    predictNextPosition modelData p1 = predictNextPosition modelData p2 := by
  cases modelData with
  | none => rfl
  | some m =>
    simp only [predictNextPosition]
    rw [if_neg (show ¬ p1.length = 0 by omega),
      if_neg (show ¬ p2.length = 0 by omega), heq]

/-- Witness for C10: a 21-sample and a 22-sample history with the same
first 21 entries. -/
theorem predict_window_only_witness :
    (21 ≤ histA.length ∧ 21 ≤ histB.length ∧ histA.take 21 = histB.take 21) ∧
    predictNextPosition (some flatModel) histA =
      predictNextPosition (some flatModel) histB :=
  ⟨⟨by norm_num [histA], by norm_num [histB], by simp [histA, histB]⟩,
   predict_window_only (some flatModel) histA histB (by norm_num [histA])
     (by norm_num [histB]) (by simp [histA, histB])⟩

/-- C7 counterexample: the forward-then-inverse round trip at the
equator, anchor `lon = -179.5`, target `lon2 = 179.5` (same latitude 0),
returns longitude `-180.5`, which is 360° away from `lon2` — far beyond
the 1e-6 tolerance.  (The wraparound fires on the +359° raw difference,
so the recovered longitude is offset by a full revolution.) -/
theorem roundTrip_wrap_counterexample :
    (roundTrip 0 (-179.5) 0 179.5).2 = -180.5 ∧
    ¬ |(roundTrip 0 (-179.5) 0 179.5).2 - 179.5| ≤ 1e-6 := by
  have hpi := Real.pi_pos
  have hr : toRad ((179.5 : ℝ) - (-179.5)) = 359 * Real.pi / 180 := by
    unfold toRad
    ring
  have hw : jsMod (toRad ((179.5 : ℝ) - (-179.5)) + Real.pi) (2 * Real.pi) - Real.pi
      = 359 * Real.pi / 180 - 2 * Real.pi := by
    rw [hr]
    exact wrapLon_eq_sub (by linarith) (by linarith)
  have h2 : (roundTrip 0 (-179.5) 0 179.5).2 = -180.5 := by
    simp only [roundTrip, haversineDelta, applyDeltaHaversine, hw, toRad_zero]
    norm_num [Real.cos_zero]
    field_simp
    ring
  refine ⟨h2, ?_⟩
  rw [h2, not_le]
  have habs : |(-180.5 : ℝ) - 179.5| = 360 := by
    rw [show (-180.5 : ℝ) - 179.5 = -360 by norm_num, abs_neg,
      abs_of_nonneg (by norm_num : (0:ℝ) ≤ 360)]
  rw [habs]
  norm_num

/-- C7 (amended): the degenerate single-latitude round trip recovers the
second point within 1e-6 degrees (in fact exactly), provided the raw
longitude difference lies strictly inside `(-180, 180)` (so the
wraparound does not fire) and the latitude is strictly inside
`(-90, 90)` (so the cosine divisor is nonzero). -/
theorem roundTrip_single_latitude (lat lon lon2 : ℝ)
    (h1 : -90 < lat) (h2 : lat < 90)
    (h3 : -180 < lon2 - lon) (h4 : lon2 - lon < 180) :
    |(roundTrip lat lon lat lon2).1 - lat| ≤ 1e-6 ∧
    |(roundTrip lat lon lat lon2).2 - lon2| ≤ 1e-6 := by
  have hpi := Real.pi_pos
  have hcos : 0 < Real.cos (lat * Real.pi / 180) := by
    apply Real.cos_pos_of_mem_Ioo
    constructor
    · nlinarith [mul_pos (show (0:ℝ) < lat + 90 by linarith) hpi]
    · nlinarith [mul_pos (show (0:ℝ) < 90 - lat by linarith) hpi]
  have hr1 : -(2 * Real.pi) < toRad (lon2 - lon) := by
    unfold toRad
    nlinarith [mul_pos (show (0:ℝ) < lon2 - lon + 180 by linarith) hpi]
  have hr2 : toRad (lon2 - lon) < Real.pi := by
    unfold toRad
    nlinarith [mul_pos (show (0:ℝ) < 180 - (lon2 - lon) by linarith) hpi]
  have hw := wrapLon_eq_self hr1 hr2
  have hmean : (toRad lat + toRad lat) / 2 = lat * Real.pi / 180 := by
    unfold toRad
    ring
  have hlat : (roundTrip lat lon lat lon2).1 = lat := by
    simp only [roundTrip, haversineDelta, applyDeltaHaversine]
    simp [toRad_zero]
  have hlon : (roundTrip lat lon lat lon2).2 = lon2 := by
    simp only [roundTrip, haversineDelta, applyDeltaHaversine, hw, hmean]
    unfold toRad
    field_simp
    ring
  rw [hlat, hlon]
  norm_num

/-- Witness for C7 (amended) at anchor `(10, 20)` and target `(10, 21)`. -/
theorem roundTrip_single_latitude_witness :
    ((-90 : ℝ) < 10 ∧ (10 : ℝ) < 90 ∧ (-180 : ℝ) < 21 - 20 ∧ (21 : ℝ) - 20 < 180) ∧
    (|(roundTrip 10 20 10 21).1 - 10| ≤ 1e-6 ∧
     |(roundTrip 10 20 10 21).2 - 21| ≤ 1e-6) :=
  ⟨⟨by norm_num, by norm_num, by norm_num, by norm_num⟩,
   roundTrip_single_latitude 10 20 21 (by norm_num) (by norm_num)
     (by norm_num) (by norm_num)⟩

/-- Indexing into the concatenation of length-7 blocks: the `k`-th entry
of block `j` sits at flat index `7·j + k`. -/
theorem getD_flatten_uniform :
    ∀ L : List (List ℝ), (∀ l ∈ L, l.length = 7) →
      ∀ j k : ℕ, j < L.length → k < 7 →
        (L.flatten).getD (7 * j + k) 0 = (L.getD j []).getD k 0 := by
  intro L
  induction L with
  | nil =>
    intro _ j k hj _
    simp at hj
  | cons a L ih =>
    intro hL j k hj hk
    have ha : a.length = 7 := hL a (List.mem_cons_self a L)
    cases j with
    | zero =>
      simp only [List.flatten_cons, Nat.mul_zero, Nat.zero_add]
      rw [List.getD_append _ _ _ _ (by omega), List.getD_cons_zero]
    | succ j =>
      simp only [List.flatten_cons]
      rw [List.getD_append_right _ _ _ _ (by omega)]
      have hidx : 7 * (j + 1) + k - a.length = 7 * j + k := by omega
      rw [hidx, List.getD_cons_succ]
      exact ih (fun l hl => hL l (List.mem_cons_of_mem a hl)) j k
        (by simpa using hj) hk

/-- C5: the feature vector of a ≥21-sample history is 140 long, and group
`j` (flat indices `7j .. 7j+6`) holds, for the chronologically consecutive
pair `w[j] = positions[20-j]`, `w[j+1] = positions[19-j]`: the two
geodesic-delta components, the altitude delta, and the EARLIER sample's
own-motion and wind readings (`?? 0`-defaulted), in that order. -/
theorem features_layout (positions : List Sample) (hlen : 21 ≤ positions.length) :
    (featuresOf ((positions.take 21).reverse)).length = 140 ∧
    ∀ j : ℕ, j < 20 →
      ((featuresOf ((positions.take 21).reverse)).getD (7 * j) 0 =
          (haversineDelta (positions.getD (20 - j) default).lat
            (positions.getD (20 - j) default).lon
            (positions.getD (19 - j) default).lat
            (positions.getD (19 - j) default).lon).1 ∧
        (featuresOf ((positions.take 21).reverse)).getD (7 * j + 1) 0 =
          (haversineDelta (positions.getD (20 - j) default).lat
            (positions.getD (20 - j) default).lon
            (positions.getD (19 - j) default).lat
            (positions.getD (19 - j) default).lon).2 ∧
        (featuresOf ((positions.take 21).reverse)).getD (7 * j + 2) 0 =
          (positions.getD (19 - j) default).alt - (positions.getD (20 - j) default).alt ∧
        (featuresOf ((positions.take 21).reverse)).getD (7 * j + 3) 0 =
          (positions.getD (20 - j) default).balloon_speed.getD 0 ∧
        (featuresOf ((positions.take 21).reverse)).getD (7 * j + 4) 0 =
          (positions.getD (20 - j) default).balloon_dir.getD 0 ∧
        (featuresOf ((positions.take 21).reverse)).getD (7 * j + 5) 0 =
          (positions.getD (20 - j) default).windspeed.getD 0 ∧
        (featuresOf ((positions.take 21).reverse)).getD (7 * j + 6) 0 =
          (positions.getD (20 - j) default).winddir.getD 0) := by
  refine ⟨length_featuresOf _, fun j hj => ?_⟩
  have key : ∀ k : ℕ, k < 7 →
      (featuresOf ((positions.take 21).reverse)).getD (7 * j + k) 0 =
        (pairFeatures (positions.getD (20 - j) default)
          (positions.getD (19 - j) default)).getD k 0 := by
    intro k hk
    unfold featuresOf
    rw [getD_flatten_uniform _ ?uni j k ?len hk]
    case uni =>
      intro l hl
      simp only [List.mem_map] at hl
      obtain ⟨i, _, rfl⟩ := hl
      exact length_pairFeatures _ _
    case len => simpa using hj
    have hmap : ((List.range 20).map fun i =>
        pairFeatures (((positions.take 21).reverse).getD i default)
          (((positions.take 21).reverse).getD (i + 1) default)).getD j []
        = pairFeatures (((positions.take 21).reverse).getD j default)
            (((positions.take 21).reverse).getD (j + 1) default) := by
      rw [List.getD_eq_getElem _ _ (by simpa using hj)]
      simp
    rw [hmap, getD_reverse_take positions j (by omega) hlen,
      getD_reverse_take positions (j + 1) (by omega) hlen,
      show 20 - (j + 1) = 19 - j by omega]
  refine ⟨?_, ?_, ?_, ?_, ?_, ?_, ?_⟩
  · simpa [pairFeatures] using key 0 (by norm_num)
  · simpa [pairFeatures] using key 1 (by norm_num)
  · simpa [pairFeatures] using key 2 (by norm_num)
  · simpa [pairFeatures] using key 3 (by norm_num)
  · simpa [pairFeatures] using key 4 (by norm_num)
  · simpa [pairFeatures] using key 5 (by norm_num)
  · simpa [pairFeatures] using key 6 (by norm_num)

/-- Witness for C5 at the concrete history `histA`. -/
theorem features_layout_witness :
    21 ≤ histA.length ∧
    ((featuresOf ((histA.take 21).reverse)).length = 140 ∧
    ∀ j : ℕ, j < 20 →
      ((featuresOf ((histA.take 21).reverse)).getD (7 * j) 0 =
          (haversineDelta (histA.getD (20 - j) default).lat
            (histA.getD (20 - j) default).lon
            (histA.getD (19 - j) default).lat
            (histA.getD (19 - j) default).lon).1 ∧
        (featuresOf ((histA.take 21).reverse)).getD (7 * j + 1) 0 =
          (haversineDelta (histA.getD (20 - j) default).lat
            (histA.getD (20 - j) default).lon
            (histA.getD (19 - j) default).lat
            (histA.getD (19 - j) default).lon).2 ∧
        (featuresOf ((histA.take 21).reverse)).getD (7 * j + 2) 0 =
          (histA.getD (19 - j) default).alt - (histA.getD (20 - j) default).alt ∧
        (featuresOf ((histA.take 21).reverse)).getD (7 * j + 3) 0 =
          (histA.getD (20 - j) default).balloon_speed.getD 0 ∧
        (featuresOf ((histA.take 21).reverse)).getD (7 * j + 4) 0 =
          (histA.getD (20 - j) default).balloon_dir.getD 0 ∧
        (featuresOf ((histA.take 21).reverse)).getD (7 * j + 5) 0 =
          (histA.getD (20 - j) default).windspeed.getD 0 ∧
        (featuresOf ((histA.take 21).reverse)).getD (7 * j + 6) 0 =
          (histA.getD (20 - j) default).winddir.getD 0)) :=
  ⟨by norm_num [histA], features_layout histA (by norm_num [histA])⟩

/-- Stripping the optional fields of the element read at any index of a
zero-defaulted mapped history gives the strip-mapped read (out-of-range
reads hit `default`, whose optional fields are already absent). -/
theorem getD_map_strip_zero (w : List Sample) (i : ℕ) :
    (w.map stripOptional).getD i default =
      stripOptional ((w.map zeroOptional).getD i default) := by
  rcases Nat.lt_or_ge i w.length with h | h
  · rw [List.getD_eq_getElem _ _ (by simpa using h),
      List.getD_eq_getElem _ _ (by simpa using h)]
    simp only [List.getElem_map]
    rfl
  · rw [List.getD_eq_default _ _ (by simpa using h),
      List.getD_eq_default _ _ (by simpa using h)]
    rfl

/-- Every element read from a `zeroOptional`-mapped history has all four
optional readings defaulting to 0. -/
theorem getD_map_zero_opt (w : List Sample) (i : ℕ) :
    ((w.map zeroOptional).getD i default).balloon_speed.getD 0 = 0 ∧
    ((w.map zeroOptional).getD i default).balloon_dir.getD 0 = 0 ∧
    ((w.map zeroOptional).getD i default).windspeed.getD 0 = 0 ∧
    ((w.map zeroOptional).getD i default).winddir.getD 0 = 0 := by
  rcases Nat.lt_or_ge i w.length with h | h
  · rw [List.getD_eq_getElem _ _ (by simpa using h)]
    simp [zeroOptional]
  · rw [List.getD_eq_default _ _ (by simpa using h)]
    exact ⟨rfl, rfl, rfl, rfl⟩

/-- Removing optional fields does not change a feature group when the
earlier sample's optional readings already default to 0. -/
theorem pairFeatures_strip (u v : Sample)
    (hu1 : u.balloon_speed.getD 0 = 0) (hu2 : u.balloon_dir.getD 0 = 0)
    (hu3 : u.windspeed.getD 0 = 0) (hu4 : u.winddir.getD 0 = 0) :
    pairFeatures (stripOptional u) (stripOptional v) = pairFeatures u v := by
  unfold pairFeatures stripOptional
  simp [hu1, hu2, hu3, hu4]

/-- Feature extraction cannot tell absent optional fields from explicit
zeros. -/
theorem featuresOf_map_strip_zero (w : List Sample) :
    featuresOf (w.map stripOptional) = featuresOf (w.map zeroOptional) := by
  unfold featuresOf
  refine congrArg List.flatten (List.map_congr_left fun j _ => ?_)
  rw [getD_map_strip_zero w j, getD_map_strip_zero w (j + 1)]
  obtain ⟨hu1, hu2, hu3, hu4⟩ := getD_map_zero_opt w j
  exact pairFeatures_strip _ _ hu1 hu2 hu3 hu4

/-- C8: a history in which every sample omits the optional fields
`balloon_speed`, `balloon_dir`, `windspeed`, `winddir` yields exactly the
same result as the history with those fields explicitly set to 0 — for
any model and any length (a missing optional field never errors). -/
theorem predict_optional_defaults (modelData : Option Model)
    (positions : List Sample) :
    predictNextPosition modelData (positions.map stripOptional) =
      predictNextPosition modelData (positions.map zeroOptional) := by
  cases modelData with
  | none => rfl
  | some m =>
    simp only [predictNextPosition]
    rcases Nat.eq_zero_or_pos positions.length with h0 | h0
    · rw [if_pos (by simpa using h0), if_pos (by simpa using h0)]
    · rw [if_neg (show ¬ (positions.map stripOptional).length = 0 by
          simp only [List.length_map]; omega),
        if_neg (show ¬ (positions.map zeroOptional).length = 0 by
          simp only [List.length_map]; omega),
        show (positions.map stripOptional).take 21
          = (positions.take 21).map stripOptional from (List.map_take _ _ _).symm,
        show (positions.map zeroOptional).take 21
          = (positions.take 21).map zeroOptional from (List.map_take _ _ _).symm,
        show ((positions.take 21).map stripOptional).reverse
          = ((positions.take 21).reverse).map stripOptional from
          (List.map_reverse _ _).symm,
        show ((positions.take 21).map zeroOptional).reverse
          = ((positions.take 21).reverse).map zeroOptional from
          (List.map_reverse _ _).symm]
      simp only [List.length_map, featuresOf_map_strip_zero,
        getD_map_strip_zero]
      rfl

end WindBorne
